import Mathlib

/-!
Verification development for the pscbfm parallel bond-fluctuation-model
Monte-Carlo engine (`src/pscbfm/UpdaterGPUScBFM_AB_Type.cu`).

The definitions below are a shallow embedding of the device kernels and of the
host-side configuration routines.  Machine integers are modelled as `Nat`/`Int`
with explicit reduction modulo `2^32` where 32-bit overflow matters; bitwise
masks, shifts and modular wrap by powers of two are modelled with `%`, `*` and
`/` on the corresponding powers of two (`x & (2^k - 1) = x % 2^k`,
`x << k = x * 2^k`, `x >> k = x / 2^k`).  Lattice positions are signed lattice
integers (the source parameterises their width; we use `Int`), and the lattices
are boolean occupancy maps over linearised cell indices.
-/

namespace Pscbfm

/-- `2^32`, the modulus of 32-bit unsigned arithmetic. -/
def M32 : ℕ := 4294967296

/-- The `hash` device function of the source: Thomas Wang's 2007-03 32-bit
integer mixing function, six add/xor/shift rounds on a 32-bit unsigned value.
`a << k` is modelled as `a * 2^k` (with the wrap folded into the `% M32` of the
enclosing addition) and `a >> k` as `a / 2^k`. -/
def hash (a0 : ℕ) : ℕ :=
  let a1 := (a0 + 0x7ed55d16 + a0 * 4096) % M32
  let a2 := (a1 ^^^ 0xc761c23c) ^^^ (a1 / 524288)
  let a3 := (a2 + 0x165667b1 + a2 * 32) % M32
  let a4 := ((a3 + 0xd3a2646c) % M32) ^^^ ((a3 * 512) % M32)
  let a5 := (a4 + 0xfd7046c5 + a4 * 8) % M32
  (a5 ^^^ 0xb55a4f09) ^^^ (a5 / 65536)

/-- Modelled from the spec: `wang32`, the canonical 32-bit Wang integer hash
(the 2007-03 magic-number version) that the specification requires the
direction hash to coincide with, written out independently from the spec's
reference function: six add/xor/shift rounds on a 32-bit unsigned value. -/
def wang32 (k0 : ℕ) : ℕ :=
  let k1 := (k0 + 0x7ed55d16 + k0 * 4096) % M32
  let k2 := (k1 ^^^ 0xc761c23c) ^^^ (k1 / 524288)
  let k3 := (k2 + 0x165667b1 + k2 * 32) % M32
  let k4 := ((k3 + 0xd3a2646c) % M32) ^^^ ((k3 * 512) % M32)
  let k5 := (k4 + 0xfd7046c5 + k4 * 8) % M32
  (k5 ^^^ 0xb55a4f09) ^^^ (k5 / 65536)

/-- The direction draw of the check kernel (line 399 of the source):
`hash( hash( iMonomer ) ^ rSeed ) % 6`. -/
def proposedDirection (iMonomer rSeed : ℕ) : ℕ :=
  hash (hash iMonomer ^^^ rSeed) % 6

/-- `DXTable_d = { -1, 1, 0, 0, 0, 0 }`. -/
def DXTable_d (i : ℕ) : ℤ :=
  if i = 0 then -1 else if i = 1 then 1 else 0

/-- `DYTable_d = { 0, 0, -1, 1, 0, 0 }`. -/
def DYTable_d (i : ℕ) : ℤ :=
  if i = 2 then -1 else if i = 3 then 1 else 0

/-- `DZTable_d = { 0, 0, 0, 0, -1, 1 }`. -/
def DZTable_d (i : ℕ) : ℤ :=
  if i = 4 then -1 else if i = 5 then 1 else 0

/-- Box configuration.  The device constants require power-of-two edges
(`assert( isPowerOfTwo( dcBox*M1 + 1 ) )`), so the box is carried by its three
base-2 logarithms: `dcBoxXM1 = 2^xlog - 1`, `dcBoxXLog2 = xlog`,
`dcBoxXYLog2 = xlog + ylog`. -/
structure BoxCfg where
  xlog : ℕ
  ylog : ℕ
  zlog : ℕ
deriving DecidableEq

/-- Box edge length in x: `mBoxX`. -/
def boxX (b : BoxCfg) : ℕ := 2 ^ b.xlog

/-- Box edge length in y: `mBoxY`. -/
def boxY (b : BoxCfg) : ℕ := 2 ^ b.ylog

/-- Box edge length in z: `mBoxZ`. -/
def boxZ (b : BoxCfg) : ℕ := 2 ^ b.zlog

/-- `linearizeBoxVectorIndex`:
`(ix & dcBoxXM1) + ((iy & dcBoxYM1) << dcBoxXLog2) + ((iz & dcBoxZM1) << dcBoxXYLog2)`.
For power-of-two edges, the two's-complement mask `& (2^k - 1)` is the
Euclidean remainder `% 2^k` of the signed coordinate. -/
def linearizeBoxVectorIndex (b : BoxCfg) (ix iy iz : ℤ) : ℕ :=
  (ix % ((boxX b : ℕ) : ℤ)).toNat +
    (iy % ((boxY b : ℕ) : ℤ)).toNat * 2 ^ b.xlog +
    (iz % ((boxZ b : ℕ) : ℤ)).toNat * 2 ^ (b.xlog + b.ylog)

/-- `linearizeBondVectorIndex`: `(x & 7) + ((y & 7) << 3) + ((z & 7) << 6)`. -/
def linearizeBondVectorIndex (x y z : ℤ) : ℕ :=
  (x % 8).toNat + (y % 8).toNat * 8 + (z % 8).toNat * 64

/-- `isPowerOfTwo`: `!(x == 0) && !(x & (x-1))`. -/
def isPowerOfTwo (x : ℕ) : Bool :=
  (x != 0) && (x &&& (x - 1) == 0)

/-- `checkFront` (the compiled `#else` branch of the source): tests the 3x3
cell plane two steps ahead of `(x0,y0,z0)` in direction `axis`, OR-reducing
the nine occupancy bytes of `texLattice`.  The nine linear indices are sums of
precomputed per-axis terms, exactly as in the source. -/
def checkFront (b : BoxCfg) (texLattice : ℕ → Bool) (x0 y0 z0 : ℤ) (axis : ℕ) : Bool :=
  let x0Abs := (x0 % ((boxX b : ℕ) : ℤ)).toNat
  let x0PDX := ((x0 + 1) % ((boxX b : ℕ) : ℤ)).toNat
  let x0MDX := ((x0 - 1) % ((boxX b : ℕ) : ℤ)).toNat
  let y0Abs := (y0 % ((boxY b : ℕ) : ℤ)).toNat * 2 ^ b.xlog
  let y0PDY := ((y0 + 1) % ((boxY b : ℕ) : ℤ)).toNat * 2 ^ b.xlog
  let y0MDY := ((y0 - 1) % ((boxY b : ℕ) : ℤ)).toNat * 2 ^ b.xlog
  let z0Abs := (z0 % ((boxZ b : ℕ) : ℤ)).toNat * 2 ^ (b.xlog + b.ylog)
  let z0PDZ := ((z0 + 1) % ((boxZ b : ℕ) : ℤ)).toNat * 2 ^ (b.xlog + b.ylog)
  let z0MDZ := ((z0 - 1) % ((boxZ b : ℕ) : ℤ)).toNat * 2 ^ (b.xlog + b.ylog)
  let dx := DXTable_d axis
  let dy := DYTable_d axis
  let dz := DZTable_d axis
  if axis / 2 = 0 then
    let x1 := ((x0 + 2 * dx) % ((boxX b : ℕ) : ℤ)).toNat
    texLattice (x1 + y0MDY + z0Abs) ||
    texLattice (x1 + y0Abs + z0Abs) ||
    texLattice (x1 + y0PDY + z0Abs) ||
    texLattice (x1 + y0MDY + z0MDZ) ||
    texLattice (x1 + y0Abs + z0MDZ) ||
    texLattice (x1 + y0PDY + z0MDZ) ||
    texLattice (x1 + y0MDY + z0PDZ) ||
    texLattice (x1 + y0Abs + z0PDZ) ||
    texLattice (x1 + y0PDY + z0PDZ)
  else if axis / 2 = 1 then
    let y1 := ((y0 + 2 * dy) % ((boxY b : ℕ) : ℤ)).toNat * 2 ^ b.xlog
    texLattice (x0MDX + y1 + z0MDZ) ||
    texLattice (x0Abs + y1 + z0MDZ) ||
    texLattice (x0PDX + y1 + z0MDZ) ||
    texLattice (x0MDX + y1 + z0Abs) ||
    texLattice (x0Abs + y1 + z0Abs) ||
    texLattice (x0PDX + y1 + z0Abs) ||
    texLattice (x0MDX + y1 + z0PDZ) ||
    texLattice (x0Abs + y1 + z0PDZ) ||
    texLattice (x0PDX + y1 + z0PDZ)
  else if axis / 2 = 2 then
    let z1 := ((z0 + 2 * dz) % ((boxZ b : ℕ) : ℤ)).toNat * 2 ^ (b.xlog + b.ylog)
    texLattice (x0MDX + y0MDY + z1) ||
    texLattice (x0Abs + y0MDY + z1) ||
    texLattice (x0PDX + y0MDY + z1) ||
    texLattice (x0MDX + y0Abs + z1) ||
    texLattice (x0Abs + y0Abs + z1) ||
    texLattice (x0PDX + y0Abs + z1) ||
    texLattice (x0MDX + y0PDY + z1) ||
    texLattice (x0Abs + y0PDY + z1) ||
    texLattice (x0PDX + y0PDY + z1)
  else false

/-- One element of `dpPolymerSystem`: the lattice position `(x,y,z)` and the
packed property tag `w` (bits 5-7 of `w` hold the neighbour count). -/
structure Monomer where
  x : ℤ
  y : ℤ
  z : ℤ
  w : ℕ
deriving DecidableEq

/-- The device arrays touched by the three kernels of one substep:
`dpPolymerSystem` (global monomer array), `dpPolymerFlags`, the committed
lattice `mLatticeOut` and the scratch lattice `mLatticeTmp`, the latter two as
occupancy predicates over linearised cell indices. -/
structure DeviceState where
  polymer : ℕ → Monomer
  flags : ℕ → ℕ
  latticeOut : ℕ → Bool
  latticeTmp : ℕ → Bool

/-- The launch configuration of one substep: the box, the periodicity mode
(`nonPeriodic = true` models compiling with `NONPERIODICITY`), the bond table
`dpForbiddenBonds` (indexed by `linearizeBondVectorIndex`), the species'
neighbour matrix `dpNeighbors` (already offset to the species, with pitch
`rNeighborsPitchElements`), the species offset `iSubGroupOffset[iSpecies]`,
the species size `nMonomers` and the substep seed `rSeed`. -/
structure SubstepCfg where
  box : BoxCfg
  nonPeriodic : Bool
  forbidden : ℕ → Bool
  neighbors : ℕ → ℕ
  pitch : ℕ
  iOffset : ℕ
  nMonomers : ℕ
  seed : ℕ

/-- The bond test of the check kernel: some neighbour `j` of the monomer makes
`dpForbiddenBonds[ linearizeBondVectorIndex( pos(j) - (pos+d) ) ]` true.
Neighbour slot `iNeighbor` of local monomer `iMonomer` is the global index
`dpNeighbors[ iNeighbor * pitch + iMonomer ]`. -/
def bondRejected (cfg : SubstepCfg) (p : ℕ → Monomer) (data : Monomer)
    (iMonomer : ℕ) (dx dy dz : ℤ) : Bool :=
  (List.range (data.w / 32 % 8)).any fun iNeighbor =>
    let data2 := p (cfg.neighbors (iNeighbor * cfg.pitch + iMonomer))
    cfg.forbidden (linearizeBondVectorIndex (data2.x - data.x - dx)
      (data2.y - data.y - dy) (data2.z - data.z - dz))

/-- The flag value `kernelSimulationScBFMCheckSpecies` stores for local
monomer `iMonomer`: `0` if the boundary test (non-periodic mode only), the
bond test or the excluded-volume test against `texLatticeRefOut` rejects the
proposal, and `(direction << 2) + 1` otherwise. -/
def checkFlag (cfg : SubstepCfg) (tex : ℕ → Bool) (p : ℕ → Monomer)
    (iMonomer : ℕ) : ℕ :=
  let data := p (cfg.iOffset + iMonomer)
  let direction := proposedDirection iMonomer cfg.seed
  let dx := DXTable_d direction
  let dy := DYTable_d direction
  let dz := DZTable_d direction
  if cfg.nonPeriodic = true ∧
      ¬ (0 ≤ data.x + dx ∧ data.x + dx < (boxX cfg.box : ℤ) - 1 ∧
         0 ≤ data.y + dy ∧ data.y + dy < (boxY cfg.box : ℤ) - 1 ∧
         0 ≤ data.z + dz ∧ data.z + dz < (boxZ cfg.box : ℤ) - 1) then 0
  else if bondRejected cfg p data iMonomer dx dy dz = true then 0
  else if checkFront cfg.box tex data.x data.y data.z direction = true then 0
  else direction * 4 + 1

/-- The scratch-lattice cell the check kernel marks for an accepted monomer:
`linearizeBoxVectorIndex( x0+dx, y0+dy, z0+dz )`. -/
def checkDest (cfg : SubstepCfg) (p : ℕ → Monomer) (iMonomer : ℕ) : ℕ :=
  let data := p (cfg.iOffset + iMonomer)
  let direction := proposedDirection iMonomer cfg.seed
  linearizeBoxVectorIndex cfg.box (data.x + DXTable_d direction)
    (data.y + DYTable_d direction) (data.z + DZTable_d direction)

/-- One thread of `kernelSimulationScBFMCheckSpecies`: store the flag for the
monomer (`0` on rejection) and, on acceptance, set the destination cell of the
scratch lattice `dpLatticeTmp` to 1.  `tex` is the committed-lattice texture
snapshot `texLatticeRefOut`. -/
def checkThread (cfg : SubstepCfg) (tex : ℕ → Bool) (s : DeviceState)
    (iMonomer : ℕ) : DeviceState :=
  if checkFlag cfg tex s.polymer iMonomer = 0 then
    { s with flags := Function.update s.flags (cfg.iOffset + iMonomer) 0 }
  else
    { s with
      flags := Function.update s.flags (cfg.iOffset + iMonomer)
        (checkFlag cfg tex s.polymer iMonomer),
      latticeTmp := Function.update s.latticeTmp
        (checkDest cfg s.polymer iMonomer) true }

/-- The check kernel over the first `n` local monomer indices. -/
def kernelCheckN (cfg : SubstepCfg) (tex : ℕ → Bool) (n : ℕ)
    (s : DeviceState) : DeviceState :=
  (List.range n).foldl (checkThread cfg tex) s

/-- `kernelSimulationScBFMCheckSpecies` over the whole species, with the
committed lattice bound as the read-only texture. -/
def kernelCheck (cfg : SubstepCfg) (s : DeviceState) : DeviceState :=
  kernelCheckN cfg s.latticeOut cfg.nMonomers s

/-- The flag value `kernelSimulationScBFMPerformSpecies` leaves for a monomer
whose current flag value is `properties`: unchanged unless bit 0 is set and
the 3x3 re-test against the scratch texture passes, in which case
`properties | 2`.  `properties & 1` is `properties % 2` and
`(properties >> 2) & 7` is `properties / 4 % 8`. -/
def performFlag (b : BoxCfg) (texTmp : ℕ → Bool) (data : Monomer)
    (properties : ℕ) : ℕ :=
  if properties % 2 = 0 then properties
  else if checkFront b texTmp data.x data.y data.z (properties / 4 % 8) = true then
    properties
  else properties ||| 2

/-- One thread of `kernelSimulationScBFMPerformSpecies`: for a monomer whose
check flag is set, re-run the 3x3 test against the scratch texture
`texLatticeTmp`; if it passes, set flag bit 1 and move the monomer on the
committed lattice (destination cell to 1, then source cell to 0).  The kernel
is launched with pointers pre-offset by the species offset, so global indices
are `cfg.iOffset + iMonomer`. -/
def performThread (cfg : SubstepCfg) (texTmp : ℕ → Bool) (s : DeviceState)
    (iMonomer : ℕ) : DeviceState :=
  let data := s.polymer (cfg.iOffset + iMonomer)
  let properties := s.flags (cfg.iOffset + iMonomer)
  if properties % 2 = 0 then s
  else if checkFront cfg.box texTmp data.x data.y data.z (properties / 4 % 8) = true then s
  else
    { s with
      flags := Function.update s.flags (cfg.iOffset + iMonomer) (properties ||| 2),
      latticeOut := Function.update (Function.update s.latticeOut
        (linearizeBoxVectorIndex cfg.box (data.x + DXTable_d (properties / 4 % 8))
          (data.y + DYTable_d (properties / 4 % 8))
          (data.z + DZTable_d (properties / 4 % 8))) true)
        (linearizeBoxVectorIndex cfg.box data.x data.y data.z) false }

/-- The perform kernel over the first `n` local monomer indices. -/
def kernelPerformN (cfg : SubstepCfg) (texTmp : ℕ → Bool) (n : ℕ)
    (s : DeviceState) : DeviceState :=
  (List.range n).foldl (performThread cfg texTmp) s

/-- `kernelSimulationScBFMPerformSpecies` over the whole species, with the
scratch lattice (as left by the check kernel) bound as the texture. -/
def kernelPerform (cfg : SubstepCfg) (s : DeviceState) : DeviceState :=
  kernelPerformN cfg s.latticeTmp cfg.nMonomers s

/-- The monomer value `kernelSimulationScBFMZeroArraySpecies` writes back for
a monomer with flag value `properties`: the position moves by the direction
vector exactly when `properties & 3 == 3`. -/
def zeroData (properties : ℕ) (data : Monomer) : Monomer :=
  if properties % 4 = 3 then
    { data with
      x := data.x + DXTable_d (properties / 4 % 8),
      y := data.y + DYTable_d (properties / 4 % 8),
      z := data.z + DZTable_d (properties / 4 % 8) }
  else data

/-- The scratch cell the zero kernel clears for a monomer with flag value
`properties` at position `data`: `linearizeBoxVectorIndex( x0+dx, y0+dy, z0+dz )`
computed from the still-unmoved position. -/
def zeroDest (b : BoxCfg) (properties : ℕ) (data : Monomer) : ℕ :=
  linearizeBoxVectorIndex b (data.x + DXTable_d (properties / 4 % 8))
    (data.y + DYTable_d (properties / 4 % 8))
    (data.z + DZTable_d (properties / 4 % 8))

/-- One thread of `kernelSimulationScBFMZeroArraySpecies`: for each monomer
with `properties & 3 != 0`, clear the scratch destination cell and write the
(possibly moved) monomer back to `dpPolymerSystem`. -/
def zeroThread (cfg : SubstepCfg) (s : DeviceState) (iMonomer : ℕ) : DeviceState :=
  let data := s.polymer (cfg.iOffset + iMonomer)
  let properties := s.flags (cfg.iOffset + iMonomer)
  if properties % 4 = 0 then s
  else
    { s with
      latticeTmp := Function.update s.latticeTmp (zeroDest cfg.box properties data) false,
      polymer := Function.update s.polymer (cfg.iOffset + iMonomer)
        (zeroData properties data) }

/-- The zero kernel over the first `n` local monomer indices. -/
def kernelZeroN (cfg : SubstepCfg) (n : ℕ) (s : DeviceState) : DeviceState :=
  (List.range n).foldl (zeroThread cfg) s

/-- `kernelSimulationScBFMZeroArraySpecies` over the whole species. -/
def kernelZero (cfg : SubstepCfg) (s : DeviceState) : DeviceState :=
  kernelZeroN cfg cfg.nMonomers s

/-- One substep: the three kernels check → perform → zero run in order over
the selected species, with a stream barrier between kernels. -/
def substep (cfg : SubstepCfg) (s : DeviceState) : DeviceState :=
  kernelZero cfg (kernelPerform cfg (kernelCheck cfg s))

/-- The typed configuration errors raised by the staging and setup routines
(the source throws `std::runtime_error` / `std::invalid_argument` with a
message; the constructors below carry the data the message reports). -/
inductive UpdaterError where
  | wrongBondSet (nAllowedBonds : ℕ)
  | boxSizeTooLarge
  | boxNotPowerOfTwo
  | maxConnectivityExceeded
deriving DecidableEq

/-- The count of allowed entries of the 512-entry bond table computed at the
start of the setup routine: the number of `i < 512` with `!mForbiddenBonds[i]`. -/
def countAllowedBonds (mForbiddenBonds : ℕ → Bool) : ℕ :=
  ((List.range 512).filter fun i => ! mForbiddenBonds i).length

/-- The bond-table validation step of the setup routine (`initialize`, lines
726-742 of the source): count the allowed entries and throw a configuration
error unless exactly 108 are allowed. -/
def validateBondTable (mForbiddenBonds : ℕ → Bool) : Except UpdaterError ℕ :=
  if countAllowedBonds mForbiddenBonds ≠ 108 then
    Except.error (UpdaterError.wrongBondSet (countAllowedBonds mForbiddenBonds))
  else Except.ok (countAllowedBonds mForbiddenBonds)

/-- `copyBondSet` (the back end of `setAllowedBond`):
`mForbiddenBonds[ linearizeBondVectorIndex(dx,dy,dz) ] = bondForbidden`. -/
def copyBondSet (mForbiddenBonds : ℕ → Bool) (dx dy dz : ℤ)
    (bondForbidden : Bool) : ℕ → Bool :=
  Function.update mForbiddenBonds (linearizeBondVectorIndex dx dy dz) bondForbidden

/-- The box fields of the host object set by `setLatticeSize`. -/
structure HostBox where
  mBoxX : ℕ
  mBoxY : ℕ
  mBoxZ : ℕ
  mBoxXM1 : ℕ
  mBoxYM1 : ℕ
  mBoxZM1 : ℕ
  mBoxXLog2 : ℕ
  mBoxXYLog2 : ℕ
deriving DecidableEq

/-- Modelled from the spec: the largest box edge representable in the position
element type `intCUDA`; the spec (§9) makes the width a compile-time choice of
int16 or int32, and 16 bits are called sufficient, so `inRange< intCUDA >` is
modelled against the int16 maximum. -/
def intCUDAMax : ℕ := 32767

/-- The shift-count loop of `setLatticeSize`
(`log2 = 0; dummy = n; while (dummy >>= 1) ++log2;`), written with explicit
fuel so it computes by structural recursion; the loop halves at most `n`
times, so `n` itself is always sufficient fuel. -/
def shiftLog2Fuel : ℕ → ℕ → ℕ
  | 0, _ => 0
  | fuel + 1, n => if n / 2 = 0 then 0 else shiftLog2Fuel fuel (n / 2) + 1

/-- The number of shifts counted by the `setLatticeSize` loop: `floor(log2 n)`
for `n ≥ 1` and `0` for `n = 0`. -/
def shiftLog2 (n : ℕ) : ℕ := shiftLog2Fuel n n

/-- The freshly constructed host object: all box fields zero-initialised. -/
def freshHostBox : HostBox :=
  { mBoxX := 0, mBoxY := 0, mBoxZ := 0, mBoxXM1 := 0, mBoxYM1 := 0,
    mBoxZM1 := 0, mBoxXLog2 := 0, mBoxXYLog2 := 0 }

/-- `setLatticeSize` (the back end of `setBoxSize`): no-op when the sizes are
unchanged; reject sizes not representable in `intCUDA`; compute
`mBoxXLog2 = floor(log2 boxX)` and `mBoxXYLog2 = floor(log2 (boxX*boxY))` by
the shift-count loop (`shiftLog2`), and throw unless
`boxX == 1 << mBoxXLog2 && boxX*boxY == 1 << mBoxXYLog2`; on success store the
edges, the masks `mBox*M1` and the two shifts. -/
def setLatticeSize (st : HostBox) (boxX boxY boxZ : ℕ) :
    Except UpdaterError HostBox :=
  if st.mBoxX = boxX ∧ st.mBoxY = boxY ∧ st.mBoxZ = boxZ then Except.ok st
  else if ¬ (boxX ≤ intCUDAMax ∧ boxY ≤ intCUDAMax ∧ boxZ ≤ intCUDAMax) then
    Except.error UpdaterError.boxSizeTooLarge
  else
    let mBoxXLog2 := shiftLog2 boxX
    let mBoxXYLog2 := shiftLog2 (boxX * boxY)
    if boxX ≠ 2 ^ mBoxXLog2 ∨ boxX * boxY ≠ 2 ^ mBoxXYLog2 then
      Except.error UpdaterError.boxNotPowerOfTwo
    else
      Except.ok { mBoxX := boxX, mBoxY := boxY, mBoxZ := boxZ,
                  mBoxXM1 := boxX - 1, mBoxYM1 := boxY - 1, mBoxZM1 := boxZ - 1,
                  mBoxXLog2 := mBoxXLog2, mBoxXYLog2 := mBoxXYLog2 }

/-- `MAX_CONNECTIVITY = 7` (configuration constant; the header carrying the
`#define` is not part of the sources, the value is fixed by the spec (§6) and
by the source's own error message "allows max. 7 neighbors per monomer"). -/
def MAX_CONNECTIVITY : ℕ := 7

/-- One entry of `mNeighbors`: the stored neighbour count and the slots of
neighbour indices. -/
structure MonomerEdges where
  size : ℕ
  neighborIds : ℕ → ℕ

/-- `setConnectivity` (the back end of `addBond`): the source does
`auto const iNew = mNeighbors[ iMonomer1 ].size++;` and only then tests
`iNew > MAX_CONNECTIVITY-1`, so the stored neighbour count is already
incremented when the configuration error is thrown.  The error case therefore
carries the mutated `mNeighbors` array that the caller observes after the
throw. -/
def setConnectivity (mNeighbors : ℕ → MonomerEdges) (iMonomer1 iMonomer2 : ℕ) :
    Except (UpdaterError × (ℕ → MonomerEdges)) (ℕ → MonomerEdges) :=
  let iNew := (mNeighbors iMonomer1).size
  let bumped := Function.update mNeighbors iMonomer1
    { mNeighbors iMonomer1 with size := iNew + 1 }
  if iNew > MAX_CONNECTIVITY - 1 then
    Except.error (UpdaterError.maxConnectivityExceeded, bumped)
  else
    Except.ok (Function.update bumped iMonomer1
      { bumped iMonomer1 with
        neighborIds := Function.update (bumped iMonomer1).neighborIds iNew iMonomer2 })

/-- The `mNeighbors` array a caller observes after `setConnectivity` returns
or throws. -/
def neighborsAfter (r : Except (UpdaterError × (ℕ → MonomerEdges)) (ℕ → MonomerEdges)) :
    ℕ → MonomerEdges :=
  match r with
  | Except.error (_, st) => st
  | Except.ok st => st

/-- The engine state visible to `runSimulationOnGPU`: the device arrays, the
host-side `mPolymerSystem` (original loader order), the host adjacency
`mNeighbors`, and the sorting bijection `iToiNew` of the layout planner. -/
structure EngineState where
  dev : DeviceState
  mPolymerSystem : ℕ → Monomer
  mNeighbors : ℕ → MonomerEdges
  iToiNew : ℕ → ℕ
  nAllMonomers : ℕ

/-- One Monte-Carlo step: `mnElementsInGroup.size()` substeps, each on the
species and seed drawn from the RNG for that substep (`cfgOf iSubStep`). -/
def runOneMCStep (nSpecies : ℕ) (cfgOf : ℕ → SubstepCfg) (s : DeviceState) :
    DeviceState :=
  (List.range nSpecies).foldl (fun st iSubStep => substep (cfgOf iSubStep) st) s

/-- `runSimulationOnGPU`: run `nMonteCarloSteps` Monte-Carlo steps (each of
`nSpecies` substeps with the RNG draws `cfgOf iStep iSubStep`), then copy the
sorted monomer array back and untangle it into loader order through `iToiNew`
(`mPolymerSystem[i] = mPolymerSystemSorted[iToiNew[i]]` for
`i < nAllMonomers`). -/
def runSimulationOnGPU (e : EngineState) (nSpecies : ℕ)
    (cfgOf : ℕ → ℕ → SubstepCfg) (nMonteCarloSteps : ℕ) : EngineState :=
  let dev := (List.range nMonteCarloSteps).foldl
    (fun st iStep => runOneMCStep nSpecies (cfgOf iStep) st) e.dev
  { e with
    dev := dev,
    mPolymerSystem := fun i =>
      if i < e.nAllMonomers then dev.polymer (e.iToiNew i)
      else e.mPolymerSystem i }

/-- The sign `s` of the tested plane in the spec's description of the 3x3
face test: `+1` for odd direction ids, `-1` for even ones. -/
def moveSign (d : ℕ) : ℤ := if d % 2 = 1 then 1 else -1

/-- The nine cells of the spec's 3x3 face test for direction `d`: on the
plane whose coordinate along axis `a = d >> 1` is `coord[a] + 2s`, the other
two axes taking offsets `o1, o2 ∈ {-1,0,+1}` around the origin, all
coordinates taken modulo the box. -/
def nineCell (b : BoxCfg) (x y z : ℤ) (d : ℕ) (o1 o2 : ℤ) : ℕ :=
  if d / 2 = 0 then linearizeBoxVectorIndex b (x + 2 * moveSign d) (y + o1) (z + o2)
  else if d / 2 = 1 then linearizeBoxVectorIndex b (x + o1) (y + 2 * moveSign d) (z + o2)
  else linearizeBoxVectorIndex b (x + o1) (y + o2) (z + 2 * moveSign d)

/-- The scratch-lattice occupancy produced by a single monomer's own data:
its destination cell `(x,y,z)+(dx,dy,dz)` together with the 8 cells of its
current 2x2x2 cube. -/
def ownMark (b : BoxCfg) (x y z : ℤ) (d : ℕ) : ℕ → Bool := fun c =>
  decide (c = linearizeBoxVectorIndex b (x + DXTable_d d) (y + DYTable_d d) (z + DZTable_d d)) ||
  decide (c = linearizeBoxVectorIndex b x y z) ||
  decide (c = linearizeBoxVectorIndex b (x + 1) y z) ||
  decide (c = linearizeBoxVectorIndex b x (y + 1) z) ||
  decide (c = linearizeBoxVectorIndex b (x + 1) (y + 1) z) ||
  decide (c = linearizeBoxVectorIndex b x y (z + 1)) ||
  decide (c = linearizeBoxVectorIndex b (x + 1) y (z + 1)) ||
  decide (c = linearizeBoxVectorIndex b x (y + 1) (z + 1)) ||
  decide (c = linearizeBoxVectorIndex b (x + 1) (y + 1) (z + 1))

/-- A small 4x4x4 box used by the concrete witnesses. -/
def boxW : BoxCfg := { xlog := 2, ylog := 2, zlog := 2 }

/-- A lattice holding exactly one occupied cell, cell `(0,2,2)` of the 4x4x4
box, used by the face-test witness. -/
def latW : ℕ → Bool := fun c => c == linearizeBoxVectorIndex boxW 0 2 2

/-- A periodic one-monomer substep configuration for the witnesses. -/
def cfgW : SubstepCfg :=
  { box := boxW, nonPeriodic := false, forbidden := fun _ => false,
    neighbors := fun _ => 0, pitch := 1, iOffset := 0, nMonomers := 1, seed := 0 }

/-- The same one-monomer configuration in non-periodic mode. -/
def cfgWnp : SubstepCfg :=
  { box := boxW, nonPeriodic := true, forbidden := fun _ => false,
    neighbors := fun _ => 0, pitch := 1, iOffset := 0, nMonomers := 1, seed := 0 }

/-- A device state with a single monomer at the origin, clear lattices and
clear flags. -/
def devW : DeviceState :=
  { polymer := fun _ => { x := 0, y := 0, z := 0, w := 0 },
    flags := fun _ => 0,
    latticeOut := fun _ => false,
    latticeTmp := fun _ => false }

/-- A device state whose single monomer sits far outside the box, for the
non-periodic boundary witness. -/
def devWout : DeviceState :=
  { polymer := fun _ => { x := -10, y := -10, z := -10, w := 0 },
    flags := fun _ => 0,
    latticeOut := fun _ => false,
    latticeTmp := fun _ => false }

/-- A device state whose single monomer carries flag value 7 (accepted by
both phases, direction id 1 = +x), for the settle-kernel witness. -/
def devWmove : DeviceState :=
  { polymer := fun _ => { x := 0, y := 0, z := 0, w := 0 },
    flags := fun _ => 7,
    latticeOut := fun _ => false,
    latticeTmp := fun _ => false }

/-- An engine with one monomer and the identity sorting bijection, for the
zero-sweep witness. -/
def engW : EngineState :=
  { dev := devW,
    mPolymerSystem := fun _ => { x := 0, y := 0, z := 0, w := 0 },
    mNeighbors := fun _ => { size := 0, neighborIds := fun _ => 0 },
    iToiNew := fun i => i, nAllMonomers := 1 }

/-- An adjacency array whose every monomer already stores 7 neighbours. -/
def nbrsFull : ℕ → MonomerEdges := fun _ => { size := 7, neighborIds := fun _ => 0 }

/-- Claim C1: for every local monomer index `m` and 32-bit substep seed `σ`,
the direction proposed by the check kernel is `wang32(wang32(m) xor σ) mod 6`
(with `wang32` the canonical 32-bit Wang integer mixing function), it is a
valid direction id below 6, and — being a pure function of `(m, σ)` — the same
inputs always yield the same direction. -/
theorem proposedDirection_eq_wang32 (m σ : ℕ) :
    proposedDirection m σ = wang32 (wang32 m ^^^ σ) % 6 ∧
    proposedDirection m σ < 6 := by
  constructor
  · rfl
  · exact Nat.mod_lt _ (by norm_num)

/-- Setting the commit bit on a check-phase flag: `(d << 2 | 1) | 2 = d << 2 | 3`. -/
theorem flag_lor_two (d : ℕ) : (4 * d + 1) ||| 2 = 4 * d + 3 := by
  apply Nat.eq_of_testBit_eq
  intro i
  match i with
  | 0 =>
    rw [Nat.testBit_lor, Nat.testBit_zero, Nat.testBit_zero, Nat.testBit_zero]
    have h1 : (4 * d + 1) % 2 = 1 := by omega
    have h2 : (4 * d + 3) % 2 = 1 := by omega
    simp [h1, h2]
  | 1 =>
    rw [Nat.testBit_lor, Nat.testBit_succ, Nat.testBit_succ, Nat.testBit_succ,
      Nat.testBit_zero, Nat.testBit_zero, Nat.testBit_zero]
    have h1 : (4 * d + 1) / 2 = 2 * d := by omega
    have h2 : (4 * d + 3) / 2 = 2 * d + 1 := by omega
    have h3 : (2 * d) % 2 = 0 := by omega
    have h4 : (2 * d + 1) % 2 = 1 := by omega
    simp [h1, h2, h3, h4]
  | n + 2 =>
    rw [Nat.testBit_lor, Nat.testBit_succ, Nat.testBit_succ, Nat.testBit_succ,
      Nat.testBit_succ, Nat.testBit_succ, Nat.testBit_succ]
    have h1 : (4 * d + 1) / 2 / 2 = d := by omega
    have h2 : (4 * d + 3) / 2 / 2 = d := by omega
    have h3 : (2 : ℕ) / 2 / 2 = 0 := by norm_num
    rw [h1, h2, h3, Nat.zero_testBit]
    simp

/-- The masked coordinate `(i % 2^e).toNat` is a residue below `2^e`. -/
theorem emod_toNat_lt (i : ℤ) (e : ℕ) : (i % ((2 ^ e : ℕ) : ℤ)).toNat < 2 ^ e := by
  have h0 : (0 : ℤ) < ((2 ^ e : ℕ) : ℤ) := by positivity
  have h1 := Int.emod_nonneg i (ne_of_gt h0)
  have h2 := Int.emod_lt_of_pos i h0
  omega

/-- Equal linearised indices have equal per-axis residues: the linear index
`xr + yr * 2^xlog + zr * 2^(xlog+ylog)` determines its three digits. -/
theorem linearize_components (b : BoxCfg) {i1 j1 k1 i2 j2 k2 : ℤ}
    (h : linearizeBoxVectorIndex b i1 j1 k1 = linearizeBoxVectorIndex b i2 j2 k2) :
    i1 % ((2 ^ b.xlog : ℕ) : ℤ) = i2 % ((2 ^ b.xlog : ℕ) : ℤ) ∧
    j1 % ((2 ^ b.ylog : ℕ) : ℤ) = j2 % ((2 ^ b.ylog : ℕ) : ℤ) ∧
    k1 % ((2 ^ b.zlog : ℕ) : ℤ) = k2 % ((2 ^ b.zlog : ℕ) : ℤ) := by
  have ha1 := emod_toNat_lt i1 b.xlog
  have ha2 := emod_toNat_lt i2 b.xlog
  have hb1 := emod_toNat_lt j1 b.ylog
  have hb2 := emod_toNat_lt j2 b.ylog
  unfold linearizeBoxVectorIndex boxX boxY boxZ at h
  set a1 := (i1 % ((2 ^ b.xlog : ℕ) : ℤ)).toNat with hA1
  set a2 := (i2 % ((2 ^ b.xlog : ℕ) : ℤ)).toNat with hA2
  set b1 := (j1 % ((2 ^ b.ylog : ℕ) : ℤ)).toNat with hB1
  set b2 := (j2 % ((2 ^ b.ylog : ℕ) : ℤ)).toNat with hB2
  set c1 := (k1 % ((2 ^ b.zlog : ℕ) : ℤ)).toNat with hC1
  set c2 := (k2 % ((2 ^ b.zlog : ℕ) : ℤ)).toNat with hC2
  have hre : ∀ a bb c : ℕ,
      a + bb * 2 ^ b.xlog + c * 2 ^ (b.xlog + b.ylog) =
        a + (bb + c * 2 ^ b.ylog) * 2 ^ b.xlog := by
    intro a bb c
    rw [pow_add]
    ring
  rw [hre a1 b1 c1, hre a2 b2 c2] at h
  have hxpos : 0 < 2 ^ b.xlog := Nat.pos_pow_of_pos _ (by norm_num)
  have hypos : 0 < 2 ^ b.ylog := Nat.pos_pow_of_pos _ (by norm_num)
  have hax : a1 = a2 := by
    have e1 : (a1 + (b1 + c1 * 2 ^ b.ylog) * 2 ^ b.xlog) % 2 ^ b.xlog = a1 := by
      rw [Nat.add_mul_mod_self_right, Nat.mod_eq_of_lt ha1]
    have e2 : (a2 + (b2 + c2 * 2 ^ b.ylog) * 2 ^ b.xlog) % 2 ^ b.xlog = a2 := by
      rw [Nat.add_mul_mod_self_right, Nat.mod_eq_of_lt ha2]
    rw [← e1, ← e2, h]
  have hrest : b1 + c1 * 2 ^ b.ylog = b2 + c2 * 2 ^ b.ylog := by
    have hdiv : (a1 + (b1 + c1 * 2 ^ b.ylog) * 2 ^ b.xlog) / 2 ^ b.xlog =
        (a2 + (b2 + c2 * 2 ^ b.ylog) * 2 ^ b.xlog) / 2 ^ b.xlog := by
      rw [h]
    have e1 : (a1 + (b1 + c1 * 2 ^ b.ylog) * 2 ^ b.xlog) / 2 ^ b.xlog =
        a1 / 2 ^ b.xlog + (b1 + c1 * 2 ^ b.ylog) := by
      rw [mul_comm (b1 + c1 * 2 ^ b.ylog) (2 ^ b.xlog)]
      exact Nat.add_mul_div_left _ _ hxpos
    have e2 : (a2 + (b2 + c2 * 2 ^ b.ylog) * 2 ^ b.xlog) / 2 ^ b.xlog =
        a2 / 2 ^ b.xlog + (b2 + c2 * 2 ^ b.ylog) := by
      rw [mul_comm (b2 + c2 * 2 ^ b.ylog) (2 ^ b.xlog)]
      exact Nat.add_mul_div_left _ _ hxpos
    have d1 : a1 / 2 ^ b.xlog = 0 := Nat.div_eq_of_lt ha1
    have d2 : a2 / 2 ^ b.xlog = 0 := Nat.div_eq_of_lt ha2
    rw [e1, e2, d1, d2] at hdiv
    omega
  have hby : b1 = b2 := by
    have e1 : (b1 + c1 * 2 ^ b.ylog) % 2 ^ b.ylog = b1 := by
      rw [Nat.add_mul_mod_self_right, Nat.mod_eq_of_lt hb1]
    have e2 : (b2 + c2 * 2 ^ b.ylog) % 2 ^ b.ylog = b2 := by
      rw [Nat.add_mul_mod_self_right, Nat.mod_eq_of_lt hb2]
    rw [← e1, ← e2, hrest]
  have hcz : c1 = c2 := by
    have : c1 * 2 ^ b.ylog = c2 * 2 ^ b.ylog := by omega
    exact Nat.eq_of_mul_eq_mul_right hypos this
  have hnn : ∀ (i : ℤ) (e : ℕ), 0 ≤ i % ((2 ^ e : ℕ) : ℤ) := by
    intro i e
    have h0 : (0 : ℤ) < ((2 ^ e : ℕ) : ℤ) := by positivity
    exact Int.emod_nonneg i (ne_of_gt h0)
  refine ⟨?_, ?_, ?_⟩
  · have n1 := hnn i1 b.xlog
    have n2 := hnn i2 b.xlog
    rw [hA1, hA2] at hax
    omega
  · have n1 := hnn j1 b.ylog
    have n2 := hnn j2 b.ylog
    rw [hB1, hB2] at hby
    omega
  · have n1 := hnn k1 b.zlog
    have n2 := hnn k2 b.zlog
    rw [hC1, hC2] at hcz
    omega

/-- Residues modulo `2^e ≥ 4` separate integers whose difference is a nonzero
amount of absolute value at most 3. -/
theorem emod_ne_of_small_diff (e : ℕ) (he : 2 ≤ e) (a b : ℤ)
    (h1 : a - b ≠ 0) (h2 : (a - b).natAbs ≤ 3) :
    a % ((2 ^ e : ℕ) : ℤ) ≠ b % ((2 ^ e : ℕ) : ℤ) := by
  intro h
  have hd : ((2 ^ e : ℕ) : ℤ) ∣ (a - b) :=
    Int.dvd_of_emod_eq_zero (Int.emod_eq_emod_iff_emod_sub_eq_zero.mp h)
  have hdd : 2 ^ e ∣ (a - b).natAbs := by
    have := Int.natAbs_dvd_natAbs.mpr hd
    rwa [Int.natAbs_ofNat] at this
  have h3 : 2 ^ e ≤ (a - b).natAbs := Nat.le_of_dvd (by omega) hdd
  have h4 : (4 : ℕ) ≤ 2 ^ e := by
    calc (4 : ℕ) = 2 ^ 2 := rfl
    _ ≤ 2 ^ e := Nat.pow_le_pow_right (by norm_num) he
  omega

/-- For directions along x (`axis >> 1 == 0`), the nine cells fetched by
`checkFront` are the linearised cells `(x + 2 dx, y + {-1,0,1}, z + {-1,0,1})`. -/
theorem checkFront_eq_case0 (b : BoxCfg) (L : ℕ → Bool) (x y z : ℤ) (axis : ℕ)
    (h : axis / 2 = 0) :
    checkFront b L x y z axis =
      (L (linearizeBoxVectorIndex b (x + 2 * DXTable_d axis) (y - 1) z) ||
       L (linearizeBoxVectorIndex b (x + 2 * DXTable_d axis) y z) ||
       L (linearizeBoxVectorIndex b (x + 2 * DXTable_d axis) (y + 1) z) ||
       L (linearizeBoxVectorIndex b (x + 2 * DXTable_d axis) (y - 1) (z - 1)) ||
       L (linearizeBoxVectorIndex b (x + 2 * DXTable_d axis) y (z - 1)) ||
       L (linearizeBoxVectorIndex b (x + 2 * DXTable_d axis) (y + 1) (z - 1)) ||
       L (linearizeBoxVectorIndex b (x + 2 * DXTable_d axis) (y - 1) (z + 1)) ||
       L (linearizeBoxVectorIndex b (x + 2 * DXTable_d axis) y (z + 1)) ||
       L (linearizeBoxVectorIndex b (x + 2 * DXTable_d axis) (y + 1) (z + 1))) := by
  unfold checkFront linearizeBoxVectorIndex
  rw [if_pos h]

/-- For directions along y (`axis >> 1 == 1`), the nine cells fetched by
`checkFront` are the linearised cells `(x + {-1,0,1}, y + 2 dy, z + {-1,0,1})`. -/
theorem checkFront_eq_case1 (b : BoxCfg) (L : ℕ → Bool) (x y z : ℤ) (axis : ℕ)
    (h : axis / 2 = 1) :
    checkFront b L x y z axis =
      (L (linearizeBoxVectorIndex b (x - 1) (y + 2 * DYTable_d axis) (z - 1)) ||
       L (linearizeBoxVectorIndex b x (y + 2 * DYTable_d axis) (z - 1)) ||
       L (linearizeBoxVectorIndex b (x + 1) (y + 2 * DYTable_d axis) (z - 1)) ||
       L (linearizeBoxVectorIndex b (x - 1) (y + 2 * DYTable_d axis) z) ||
       L (linearizeBoxVectorIndex b x (y + 2 * DYTable_d axis) z) ||
       L (linearizeBoxVectorIndex b (x + 1) (y + 2 * DYTable_d axis) z) ||
       L (linearizeBoxVectorIndex b (x - 1) (y + 2 * DYTable_d axis) (z + 1)) ||
       L (linearizeBoxVectorIndex b x (y + 2 * DYTable_d axis) (z + 1)) ||
       L (linearizeBoxVectorIndex b (x + 1) (y + 2 * DYTable_d axis) (z + 1))) := by
  unfold checkFront linearizeBoxVectorIndex
  rw [if_neg (by omega), if_pos h]

/-- For directions along z (`axis >> 1 == 2`), the nine cells fetched by
`checkFront` are the linearised cells `(x + {-1,0,1}, y + {-1,0,1}, z + 2 dz)`. -/
theorem checkFront_eq_case2 (b : BoxCfg) (L : ℕ → Bool) (x y z : ℤ) (axis : ℕ)
    (h : axis / 2 = 2) :
    checkFront b L x y z axis =
      (L (linearizeBoxVectorIndex b (x - 1) (y - 1) (z + 2 * DZTable_d axis)) ||
       L (linearizeBoxVectorIndex b x (y - 1) (z + 2 * DZTable_d axis)) ||
       L (linearizeBoxVectorIndex b (x + 1) (y - 1) (z + 2 * DZTable_d axis)) ||
       L (linearizeBoxVectorIndex b (x - 1) y (z + 2 * DZTable_d axis)) ||
       L (linearizeBoxVectorIndex b x y (z + 2 * DZTable_d axis)) ||
       L (linearizeBoxVectorIndex b (x + 1) y (z + 2 * DZTable_d axis)) ||
       L (linearizeBoxVectorIndex b (x - 1) (y + 1) (z + 2 * DZTable_d axis)) ||
       L (linearizeBoxVectorIndex b x (y + 1) (z + 2 * DZTable_d axis)) ||
       L (linearizeBoxVectorIndex b (x + 1) (y + 1) (z + 2 * DZTable_d axis))) := by
  unfold checkFront linearizeBoxVectorIndex
  rw [if_neg (by omega), if_neg (by omega), if_pos h]

/-- Enumerating a property over the nine offset pairs drawn from `{-1,0,1}²`. -/
theorem exists_offsets_iff (f : ℤ → ℤ → Prop) :
    (∃ o1 ∈ ([-1, 0, 1] : List ℤ), ∃ o2 ∈ ([-1, 0, 1] : List ℤ), f o1 o2) ↔
      (f (-1) (-1) ∨ f 0 (-1) ∨ f 1 (-1) ∨ f (-1) 0 ∨ f 0 0 ∨ f 1 0 ∨
       f (-1) 1 ∨ f 0 1 ∨ f 1 1) := by
  simp only [List.mem_cons, List.not_mem_nil, or_false]
  constructor
  · rintro ⟨o1, (rfl | rfl | rfl), o2, (rfl | rfl | rfl), hf⟩ <;> tauto
  · rintro (h | h | h | h | h | h | h | h | h)
    · exact ⟨-1, by tauto, -1, by tauto, h⟩
    · exact ⟨0, by tauto, -1, by tauto, h⟩
    · exact ⟨1, by tauto, -1, by tauto, h⟩
    · exact ⟨-1, by tauto, 0, by tauto, h⟩
    · exact ⟨0, by tauto, 0, by tauto, h⟩
    · exact ⟨1, by tauto, 0, by tauto, h⟩
    · exact ⟨-1, by tauto, 1, by tauto, h⟩
    · exact ⟨0, by tauto, 1, by tauto, h⟩
    · exact ⟨1, by tauto, 1, by tauto, h⟩

set_option maxHeartbeats 1600000 in
/-- `checkFront` is occupied exactly when one of the nine cells of the spec's
3x3 face test is occupied. -/
theorem checkFront_occupied_iff (b : BoxCfg) (L : ℕ → Bool) (x y z : ℤ)
    (d : ℕ) (hd : d < 6) :
    checkFront b L x y z d = true ↔
      ∃ o1 ∈ ([-1, 0, 1] : List ℤ), ∃ o2 ∈ ([-1, 0, 1] : List ℤ),
        L (nineCell b x y z d o1 o2) = true := by
  interval_cases d
  · rw [checkFront_eq_case0 b L x y z 0 rfl, exists_offsets_iff]
    norm_num [nineCell, moveSign, DXTable_d, Bool.or_eq_true]
    ring_nf
    tauto
  · rw [checkFront_eq_case0 b L x y z 1 rfl, exists_offsets_iff]
    norm_num [nineCell, moveSign, DXTable_d, Bool.or_eq_true]
    ring_nf
    tauto
  · rw [checkFront_eq_case1 b L x y z 2 rfl, exists_offsets_iff]
    norm_num [nineCell, moveSign, DYTable_d, Bool.or_eq_true]
    ring_nf
    tauto
  · rw [checkFront_eq_case1 b L x y z 3 rfl, exists_offsets_iff]
    norm_num [nineCell, moveSign, DYTable_d, Bool.or_eq_true]
    ring_nf
    tauto
  · rw [checkFront_eq_case2 b L x y z 4 rfl, exists_offsets_iff]
    norm_num [nineCell, moveSign, DZTable_d, Bool.or_eq_true]
    ring_nf
    tauto
  · rw [checkFront_eq_case2 b L x y z 5 rfl, exists_offsets_iff]
    norm_num [nineCell, moveSign, DZTable_d, Bool.or_eq_true]
    ring_nf
    tauto

/-- Claim C4: for every origin `(x,y,z)` and direction id `d ∈ [0,5]`, the
excluded-volume test `checkFront` returns occupied if and only if at least one
of the nine lattice cells on the plane `coord[a] = coord[a] + 2s`
(axis `a = d >> 1`, sign `s = +1` for odd `d`, `-1` for even `d`), with the
other two axes taking offsets `-1, 0, +1` around the origin and all
coordinates taken modulo the box, is occupied. -/
theorem checkFront_matches_nine_cells (b : BoxCfg) (L : ℕ → Bool) (x y z : ℤ)
    (d : ℕ) (hd : d < 6) :
    checkFront b L x y z d = true ↔
      ∃ o1 ∈ ([-1, 0, 1] : List ℤ), ∃ o2 ∈ ([-1, 0, 1] : List ℤ),
        L (nineCell b x y z d o1 o2) = true :=
  checkFront_occupied_iff b L x y z d hd

/-- Witness for C4 at the concrete box `4x4x4`, origin `(2,2,2)`, direction
`0` (-x) and a lattice occupied exactly at `(0,2,2)`. -/
theorem checkFront_matches_nine_cells_witness :
    (0 : ℕ) < 6 ∧
    (checkFront boxW latW 2 2 2 0 = true ↔
      ∃ o1 ∈ ([-1, 0, 1] : List ℤ), ∃ o2 ∈ ([-1, 0, 1] : List ℤ),
        latW (nineCell boxW 2 2 2 0 o1 o2) = true) :=
  ⟨by decide, checkFront_matches_nine_cells boxW latW 2 2 2 0 (by decide)⟩

/-- Claim C10: in a box whose edges are powers of two of size at least 4, none
of the nine cells inspected by the 3x3 face test for a move from `(x,y,z)` in
direction `d` coincides with the mover's own destination cell or with any of
the 8 cells of its current 2x2x2 cube; consequently a lattice marked only with
the monomer's own cells — in particular its own scratch mark written by the
check phase — never makes the perform-phase re-test reject the monomer. -/
theorem ownMark_never_rejects (b : BoxCfg) (hx : 2 ≤ b.xlog) (hy : 2 ≤ b.ylog)
    (hz : 2 ≤ b.zlog) (x y z : ℤ) (d : ℕ) (hd : d < 6) :
    checkFront b (ownMark b x y z d) x y z d = false := by
  interval_cases d
  · cases hcf : checkFront b (ownMark b x y z 0) x y z 0
    · rfl
    · exfalso
      obtain ⟨o1, ho1, o2, ho2, hL⟩ :=
        (checkFront_occupied_iff b (ownMark b x y z 0) x y z 0 (by norm_num)).mp hcf
      simp [ownMark, nineCell, moveSign, DXTable_d, DYTable_d, DZTable_d, or_assoc] at hL
      rcases hL with h | h | h | h | h | h | h | h | h <;>
        exact absurd (linearize_components b h).1
          (emod_ne_of_small_diff b.xlog hx _ _ (by omega) (by omega))
  · cases hcf : checkFront b (ownMark b x y z 1) x y z 1
    · rfl
    · exfalso
      obtain ⟨o1, ho1, o2, ho2, hL⟩ :=
        (checkFront_occupied_iff b (ownMark b x y z 1) x y z 1 (by norm_num)).mp hcf
      simp [ownMark, nineCell, moveSign, DXTable_d, DYTable_d, DZTable_d, or_assoc] at hL
      rcases hL with h | h | h | h | h | h | h | h | h <;>
        exact absurd (linearize_components b h).1
          (emod_ne_of_small_diff b.xlog hx _ _ (by omega) (by omega))
  · cases hcf : checkFront b (ownMark b x y z 2) x y z 2
    · rfl
    · exfalso
      obtain ⟨o1, ho1, o2, ho2, hL⟩ :=
        (checkFront_occupied_iff b (ownMark b x y z 2) x y z 2 (by norm_num)).mp hcf
      simp [ownMark, nineCell, moveSign, DXTable_d, DYTable_d, DZTable_d, or_assoc] at hL
      rcases hL with h | h | h | h | h | h | h | h | h <;>
        exact absurd (linearize_components b h).2.1
          (emod_ne_of_small_diff b.ylog hy _ _ (by omega) (by omega))
  · cases hcf : checkFront b (ownMark b x y z 3) x y z 3
    · rfl
    · exfalso
      obtain ⟨o1, ho1, o2, ho2, hL⟩ :=
        (checkFront_occupied_iff b (ownMark b x y z 3) x y z 3 (by norm_num)).mp hcf
      simp [ownMark, nineCell, moveSign, DXTable_d, DYTable_d, DZTable_d, or_assoc] at hL
      rcases hL with h | h | h | h | h | h | h | h | h <;>
        exact absurd (linearize_components b h).2.1
          (emod_ne_of_small_diff b.ylog hy _ _ (by omega) (by omega))
  · cases hcf : checkFront b (ownMark b x y z 4) x y z 4
    · rfl
    · exfalso
      obtain ⟨o1, ho1, o2, ho2, hL⟩ :=
        (checkFront_occupied_iff b (ownMark b x y z 4) x y z 4 (by norm_num)).mp hcf
      simp [ownMark, nineCell, moveSign, DXTable_d, DYTable_d, DZTable_d, or_assoc] at hL
      rcases hL with h | h | h | h | h | h | h | h | h <;>
        exact absurd (linearize_components b h).2.2
          (emod_ne_of_small_diff b.zlog hz _ _ (by omega) (by omega))
  · cases hcf : checkFront b (ownMark b x y z 5) x y z 5
    · rfl
    · exfalso
      obtain ⟨o1, ho1, o2, ho2, hL⟩ :=
        (checkFront_occupied_iff b (ownMark b x y z 5) x y z 5 (by norm_num)).mp hcf
      simp [ownMark, nineCell, moveSign, DXTable_d, DYTable_d, DZTable_d, or_assoc] at hL
      rcases hL with h | h | h | h | h | h | h | h | h <;>
        exact absurd (linearize_components b h).2.2
          (emod_ne_of_small_diff b.zlog hz _ _ (by omega) (by omega))

/-- Witness for C10 at the concrete box `4x4x4`, origin `(0,0,0)` and
direction `0`. -/
theorem ownMark_never_rejects_witness :
    2 ≤ boxW.xlog ∧ (0 : ℕ) < 6 ∧
    checkFront boxW (ownMark boxW 0 0 0 0) 0 0 0 0 = false :=
  ⟨by decide, by decide,
    ownMark_never_rejects boxW (by decide) (by decide) (by decide) 0 0 0 0 (by decide)⟩

/-- A check thread never writes the monomer array. -/
theorem checkThread_polymer (cfg : SubstepCfg) (tex : ℕ → Bool) (s : DeviceState)
    (i : ℕ) : (checkThread cfg tex s i).polymer = s.polymer := by
  simp only [checkThread]
  split <;> rfl

/-- A check thread never writes the committed lattice. -/
theorem checkThread_latticeOut (cfg : SubstepCfg) (tex : ℕ → Bool) (s : DeviceState)
    (i : ℕ) : (checkThread cfg tex s i).latticeOut = s.latticeOut := by
  simp only [checkThread]
  split <;> rfl

/-- A check thread stores exactly `checkFlag` in its own flag slot. -/
theorem checkThread_flags (cfg : SubstepCfg) (tex : ℕ → Bool) (s : DeviceState)
    (i j : ℕ) :
    (checkThread cfg tex s i).flags j =
      if j = cfg.iOffset + i then checkFlag cfg tex s.polymer i else s.flags j := by
  simp only [checkThread]
  split
  · rename_i h
    show Function.update s.flags (cfg.iOffset + i) 0 j = _
    rw [Function.update_apply, h]
  · show Function.update s.flags (cfg.iOffset + i) (checkFlag cfg tex s.polymer i) j = _
    rw [Function.update_apply]

/-- A check thread marks the scratch lattice exactly at the destination of an
accepted proposal. -/
theorem checkThread_latticeTmp (cfg : SubstepCfg) (tex : ℕ → Bool) (s : DeviceState)
    (i c : ℕ) :
    (checkThread cfg tex s i).latticeTmp c =
      (s.latticeTmp c ||
        (decide (checkFlag cfg tex s.polymer i ≠ 0) &&
         decide (checkDest cfg s.polymer i = c))) := by
  simp only [checkThread]
  split
  · rename_i h
    show s.latticeTmp c = _
    simp [h]
  · rename_i h
    show Function.update s.latticeTmp (checkDest cfg s.polymer i) true c = _
    rw [Function.update_apply]
    by_cases hc : c = checkDest cfg s.polymer i
    · simp [hc, h]
    · have : ¬ checkDest cfg s.polymer i = c := fun hh => hc hh.symm
      simp [hc, h, this]

/-- Peeling the last thread off the check kernel. -/
theorem kernelCheckN_succ (cfg : SubstepCfg) (tex : ℕ → Bool) (n : ℕ)
    (s : DeviceState) :
    kernelCheckN cfg tex (n + 1) s = checkThread cfg tex (kernelCheckN cfg tex n s) n := by
  unfold kernelCheckN
  rw [List.range_succ, List.foldl_append, List.foldl_cons, List.foldl_nil]

/-- The check kernel never writes the monomer array. -/
theorem kernelCheckN_polymer (cfg : SubstepCfg) (tex : ℕ → Bool) :
    ∀ n s, (kernelCheckN cfg tex n s).polymer = s.polymer := by
  intro n
  induction n with
  | zero => intro s; rfl
  | succ n ih =>
    intro s
    rw [kernelCheckN_succ, checkThread_polymer, ih]

/-- The check kernel never writes the committed lattice. -/
theorem kernelCheckN_latticeOut (cfg : SubstepCfg) (tex : ℕ → Bool) :
    ∀ n s, (kernelCheckN cfg tex n s).latticeOut = s.latticeOut := by
  intro n
  induction n with
  | zero => intro s; rfl
  | succ n ih =>
    intro s
    rw [kernelCheckN_succ, checkThread_latticeOut, ih]

/-- After the check kernel, the flag of every processed monomer is its
`checkFlag` value. -/
theorem kernelCheckN_flags (cfg : SubstepCfg) (tex : ℕ → Bool) :
    ∀ n s m, m < n →
      (kernelCheckN cfg tex n s).flags (cfg.iOffset + m) =
        checkFlag cfg tex s.polymer m := by
  intro n
  induction n with
  | zero => intro s m hm; omega
  | succ n ih =>
    intro s m hm
    rw [kernelCheckN_succ, checkThread_flags]
    by_cases h : m = n
    · subst h
      rw [if_pos rfl, kernelCheckN_polymer]
    · rw [if_neg (by omega)]
      exact ih s m (by omega)

/-- After the check kernel, a scratch cell is set exactly when it was set
before or is the destination of some accepted monomer. -/
theorem kernelCheckN_latticeTmp (cfg : SubstepCfg) (tex : ℕ → Bool) :
    ∀ n s c,
      (kernelCheckN cfg tex n s).latticeTmp c =
        (s.latticeTmp c ||
          (List.range n).any fun m =>
            decide (checkFlag cfg tex s.polymer m ≠ 0) &&
            decide (checkDest cfg s.polymer m = c)) := by
  intro n
  induction n with
  | zero => intro s c; simp [kernelCheckN]
  | succ n ih =>
    intro s c
    rw [kernelCheckN_succ, checkThread_latticeTmp, ih, kernelCheckN_polymer]
    rw [List.range_succ, List.any_append]
    simp [Bool.or_assoc]

/-- A perform thread never writes the monomer array. -/
theorem performThread_polymer (cfg : SubstepCfg) (texTmp : ℕ → Bool)
    (s : DeviceState) (i : ℕ) : (performThread cfg texTmp s i).polymer = s.polymer := by
  simp only [performThread]
  split
  · rfl
  · split <;> rfl

/-- A perform thread never writes the scratch lattice. -/
theorem performThread_latticeTmp (cfg : SubstepCfg) (texTmp : ℕ → Bool)
    (s : DeviceState) (i : ℕ) :
    (performThread cfg texTmp s i).latticeTmp = s.latticeTmp := by
  simp only [performThread]
  split
  · rfl
  · split <;> rfl

/-- A perform thread rewrites exactly its own flag slot with `performFlag`. -/
theorem performThread_flags (cfg : SubstepCfg) (texTmp : ℕ → Bool)
    (s : DeviceState) (i j : ℕ) :
    (performThread cfg texTmp s i).flags j =
      if j = cfg.iOffset + i then
        performFlag cfg.box texTmp (s.polymer (cfg.iOffset + i))
          (s.flags (cfg.iOffset + i))
      else s.flags j := by
  simp only [performThread, performFlag]
  split
  · by_cases hj : j = cfg.iOffset + i
    · rw [if_pos hj, hj]
    · rw [if_neg hj]
  · split
    · by_cases hj : j = cfg.iOffset + i
      · rw [if_pos hj, hj]
      · rw [if_neg hj]
    · show Function.update s.flags (cfg.iOffset + i) _ j = _
      rw [Function.update_apply]

/-- Peeling the last thread off the perform kernel. -/
theorem kernelPerformN_succ (cfg : SubstepCfg) (texTmp : ℕ → Bool) (n : ℕ)
    (s : DeviceState) :
    kernelPerformN cfg texTmp (n + 1) s =
      performThread cfg texTmp (kernelPerformN cfg texTmp n s) n := by
  unfold kernelPerformN
  rw [List.range_succ, List.foldl_append, List.foldl_cons, List.foldl_nil]

/-- The perform kernel never writes the monomer array. -/
theorem kernelPerformN_polymer (cfg : SubstepCfg) (texTmp : ℕ → Bool) :
    ∀ n s, (kernelPerformN cfg texTmp n s).polymer = s.polymer := by
  intro n
  induction n with
  | zero => intro s; rfl
  | succ n ih =>
    intro s
    rw [kernelPerformN_succ, performThread_polymer, ih]

/-- The perform kernel never writes the scratch lattice. -/
theorem kernelPerformN_latticeTmp (cfg : SubstepCfg) (texTmp : ℕ → Bool) :
    ∀ n s, (kernelPerformN cfg texTmp n s).latticeTmp = s.latticeTmp := by
  intro n
  induction n with
  | zero => intro s; rfl
  | succ n ih =>
    intro s
    rw [kernelPerformN_succ, performThread_latticeTmp, ih]

/-- Flag slots outside the processed range are untouched by the perform
kernel. -/
theorem kernelPerformN_flags_out (cfg : SubstepCfg) (texTmp : ℕ → Bool) :
    ∀ n s j, (∀ m, m < n → j ≠ cfg.iOffset + m) →
      (kernelPerformN cfg texTmp n s).flags j = s.flags j := by
  intro n
  induction n with
  | zero => intro s j _; rfl
  | succ n ih =>
    intro s j hj
    rw [kernelPerformN_succ, performThread_flags,
      if_neg (hj n (by omega)), ih]
    intro m hm
    exact hj m (by omega)

/-- After the perform kernel, the flag of every processed monomer is its
`performFlag` value computed from the kernel's input state. -/
theorem kernelPerformN_flags (cfg : SubstepCfg) (texTmp : ℕ → Bool) :
    ∀ n s m, m < n →
      (kernelPerformN cfg texTmp n s).flags (cfg.iOffset + m) =
        performFlag cfg.box texTmp (s.polymer (cfg.iOffset + m))
          (s.flags (cfg.iOffset + m)) := by
  intro n
  induction n with
  | zero => intro s m hm; omega
  | succ n ih =>
    intro s m hm
    rw [kernelPerformN_succ, performThread_flags]
    by_cases h : m = n
    · subst h
      rw [if_pos rfl, kernelPerformN_polymer,
        kernelPerformN_flags_out cfg texTmp m s (cfg.iOffset + m) (by intro k hk; omega)]
    · rw [if_neg (by omega)]
      exact ih s m (by omega)

/-- A zero thread never writes the flags. -/
theorem zeroThread_flags (cfg : SubstepCfg) (s : DeviceState) (i : ℕ) :
    (zeroThread cfg s i).flags = s.flags := by
  simp only [zeroThread]
  split <;> rfl

/-- A zero thread never writes the committed lattice. -/
theorem zeroThread_latticeOut (cfg : SubstepCfg) (s : DeviceState) (i : ℕ) :
    (zeroThread cfg s i).latticeOut = s.latticeOut := by
  simp only [zeroThread]
  split <;> rfl

/-- A zero thread rewrites exactly its own monomer slot with `zeroData`. -/
theorem zeroThread_polymer (cfg : SubstepCfg) (s : DeviceState) (i j : ℕ) :
    (zeroThread cfg s i).polymer j =
      if j = cfg.iOffset + i then
        zeroData (s.flags (cfg.iOffset + i)) (s.polymer (cfg.iOffset + i))
      else s.polymer j := by
  simp only [zeroThread, zeroData]
  split
  · rename_i h
    rw [if_neg (show ¬ s.flags (cfg.iOffset + i) % 4 = 3 by omega)]
    by_cases hj : j = cfg.iOffset + i
    · rw [if_pos hj, hj]
    · rw [if_neg hj]
  · show Function.update s.polymer (cfg.iOffset + i) _ j = _
    rw [Function.update_apply]

/-- A zero thread clears the scratch lattice exactly at the destination of a
monomer whose flag has a low bit set. -/
theorem zeroThread_latticeTmp (cfg : SubstepCfg) (s : DeviceState) (i c : ℕ) :
    (zeroThread cfg s i).latticeTmp c =
      (s.latticeTmp c &&
        ! (decide (s.flags (cfg.iOffset + i) % 4 ≠ 0) &&
           decide (zeroDest cfg.box (s.flags (cfg.iOffset + i))
             (s.polymer (cfg.iOffset + i)) = c))) := by
  simp only [zeroThread]
  split
  · rename_i h
    show s.latticeTmp c = _
    simp [h]
  · rename_i h
    show Function.update s.latticeTmp
      (zeroDest cfg.box (s.flags (cfg.iOffset + i)) (s.polymer (cfg.iOffset + i)))
      false c = _
    rw [Function.update_apply]
    by_cases hc : c = zeroDest cfg.box (s.flags (cfg.iOffset + i))
        (s.polymer (cfg.iOffset + i))
    · simp [hc, h]
    · have : ¬ zeroDest cfg.box (s.flags (cfg.iOffset + i))
          (s.polymer (cfg.iOffset + i)) = c := fun hh => hc hh.symm
      simp [hc, h, this]

/-- Peeling the last thread off the zero kernel. -/
theorem kernelZeroN_succ (cfg : SubstepCfg) (n : ℕ) (s : DeviceState) :
    kernelZeroN cfg (n + 1) s = zeroThread cfg (kernelZeroN cfg n s) n := by
  unfold kernelZeroN
  rw [List.range_succ, List.foldl_append, List.foldl_cons, List.foldl_nil]

/-- The zero kernel never writes the flags. -/
theorem kernelZeroN_flags (cfg : SubstepCfg) :
    ∀ n s, (kernelZeroN cfg n s).flags = s.flags := by
  intro n
  induction n with
  | zero => intro s; rfl
  | succ n ih =>
    intro s
    rw [kernelZeroN_succ, zeroThread_flags, ih]

/-- The zero kernel never writes the committed lattice. -/
theorem kernelZeroN_latticeOut (cfg : SubstepCfg) :
    ∀ n s, (kernelZeroN cfg n s).latticeOut = s.latticeOut := by
  intro n
  induction n with
  | zero => intro s; rfl
  | succ n ih =>
    intro s
    rw [kernelZeroN_succ, zeroThread_latticeOut, ih]

/-- Monomer slots outside the processed range are untouched by the zero
kernel. -/
theorem kernelZeroN_polymer_out (cfg : SubstepCfg) :
    ∀ n s j, (∀ m, m < n → j ≠ cfg.iOffset + m) →
      (kernelZeroN cfg n s).polymer j = s.polymer j := by
  intro n
  induction n with
  | zero => intro s j _; rfl
  | succ n ih =>
    intro s j hj
    rw [kernelZeroN_succ, zeroThread_polymer, if_neg (hj n (by omega)), ih]
    intro m hm
    exact hj m (by omega)

/-- After the zero kernel, every processed monomer holds its `zeroData`
value computed from the kernel's input state. -/
theorem kernelZeroN_polymer (cfg : SubstepCfg) :
    ∀ n s m, m < n →
      (kernelZeroN cfg n s).polymer (cfg.iOffset + m) =
        zeroData (s.flags (cfg.iOffset + m)) (s.polymer (cfg.iOffset + m)) := by
  intro n
  induction n with
  | zero => intro s m hm; omega
  | succ n ih =>
    intro s m hm
    rw [kernelZeroN_succ, zeroThread_polymer]
    by_cases h : m = n
    · subst h
      rw [if_pos rfl, kernelZeroN_flags,
        kernelZeroN_polymer_out cfg m s (cfg.iOffset + m) (by intro k hk; omega)]
    · rw [if_neg (by omega)]
      exact ih s m (by omega)

/-- After the zero kernel, a scratch cell is set exactly when it was set
before and is not the destination of any processed monomer with a set flag. -/
theorem kernelZeroN_latticeTmp (cfg : SubstepCfg) :
    ∀ n s c,
      (kernelZeroN cfg n s).latticeTmp c =
        (s.latticeTmp c &&
          ! (List.range n).any fun m =>
            decide (s.flags (cfg.iOffset + m) % 4 ≠ 0) &&
            decide (zeroDest cfg.box (s.flags (cfg.iOffset + m))
              (s.polymer (cfg.iOffset + m)) = c)) := by
  intro n
  induction n with
  | zero => intro s c; simp [kernelZeroN]
  | succ n ih =>
    intro s c
    rw [kernelZeroN_succ, zeroThread_latticeTmp, ih, kernelZeroN_flags,
      kernelZeroN_polymer_out cfg n s (cfg.iOffset + n) (by intro m hm; omega)]
    rw [List.range_succ, List.any_append]
    simp [Bool.and_assoc]

/-- The check kernel stores either `0` (rejected) or `direction*4 + 1`
(accepted). -/
theorem checkFlag_cases (cfg : SubstepCfg) (tex : ℕ → Bool) (p : ℕ → Monomer)
    (i : ℕ) :
    checkFlag cfg tex p i = 0 ∨
      checkFlag cfg tex p i = proposedDirection i cfg.seed * 4 + 1 := by
  simp only [checkFlag]
  split
  · exact Or.inl rfl
  · split
    · exact Or.inl rfl
    · split
      · exact Or.inl rfl
      · exact Or.inr rfl

/-- `performFlag` keeps the low bit and the direction bits of an accepted
check flag: whether or not the commit bit is added, the result has
`flag & 3 != 0` and the same direction field. -/
theorem performFlag_bits (b : BoxCfg) (texTmp : ℕ → Bool) (data : Monomer)
    (d : ℕ) (hd : d < 6) :
    performFlag b texTmp data (d * 4 + 1) % 4 ≠ 0 ∧
    performFlag b texTmp data (d * 4 + 1) / 4 % 8 = d := by
  simp only [performFlag]
  rw [if_neg (by omega)]
  split
  · constructor
    · omega
    · omega
  · have h24 : d * 4 + 1 = 4 * d + 1 := by ring
    rw [h24, flag_lor_two]
    constructor
    · omega
    · omega

/-- Claim C2: a substep started with an all-zero scratch lattice ends with an
all-zero scratch lattice: every scratch cell set by a phase-A-accepted
proposal is cleared again by the zero kernel, and no other kernel of the
substep sets a scratch cell. -/
theorem substep_scratch_zero (cfg : SubstepCfg) (s : DeviceState)
    (h0 : ∀ c, s.latticeTmp c = false) :
    ∀ c, (substep cfg s).latticeTmp c = false := by
  intro c
  unfold substep kernelZero kernelPerform kernelCheck
  set s1 := kernelCheckN cfg s.latticeOut cfg.nMonomers s with hs1
  set s2 := kernelPerformN cfg s1.latticeTmp cfg.nMonomers s1 with hs2
  rw [kernelZeroN_latticeTmp]
  have htmp2 : s2.latticeTmp = s1.latticeTmp := by
    rw [hs2, kernelPerformN_latticeTmp]
  have hpoly1 : s1.polymer = s.polymer := by rw [hs1, kernelCheckN_polymer]
  have hpoly2 : s2.polymer = s.polymer := by
    rw [hs2, kernelPerformN_polymer, hpoly1]
  cases htmpc : s2.latticeTmp c with
  | false => simp
  | true =>
    rw [htmp2, hs1, kernelCheckN_latticeTmp, h0 c] at htmpc
    simp only [Bool.false_or] at htmpc
    rw [List.any_eq_true] at htmpc
    obtain ⟨m, hmem, hf⟩ := htmpc
    rw [List.mem_range] at hmem
    rw [Bool.and_eq_true, decide_eq_true_eq, decide_eq_true_eq] at hf
    obtain ⟨hflag, hdest⟩ := hf
    rcases checkFlag_cases cfg s.latticeOut s.polymer m with hcf | hcf
    · exact absurd hcf hflag
    have hflags1 : s1.flags (cfg.iOffset + m) =
        proposedDirection m cfg.seed * 4 + 1 := by
      rw [hs1, kernelCheckN_flags cfg s.latticeOut cfg.nMonomers s m hmem, hcf]
    have hflags2 : s2.flags (cfg.iOffset + m) =
        performFlag cfg.box s1.latticeTmp (s1.polymer (cfg.iOffset + m))
          (s1.flags (cfg.iOffset + m)) := by
      rw [hs2]
      exact kernelPerformN_flags cfg s1.latticeTmp cfg.nMonomers s1 m hmem
    have hbits := performFlag_bits cfg.box s1.latticeTmp
      (s1.polymer (cfg.iOffset + m)) (proposedDirection m cfg.seed)
      (Nat.mod_lt _ (by norm_num))
    have hzd : zeroDest cfg.box (s2.flags (cfg.iOffset + m))
        (s2.polymer (cfg.iOffset + m)) = checkDest cfg s.polymer m := by
      rw [hflags2, hflags1, hpoly2]
      unfold zeroDest checkDest
      rw [hbits.2]
    have hany : ((List.range cfg.nMonomers).any fun m' =>
        decide (s2.flags (cfg.iOffset + m') % 4 ≠ 0) &&
        decide (zeroDest cfg.box (s2.flags (cfg.iOffset + m'))
          (s2.polymer (cfg.iOffset + m')) = c)) = true := by
      rw [List.any_eq_true]
      refine ⟨m, List.mem_range.mpr hmem, ?_⟩
      rw [Bool.and_eq_true, decide_eq_true_eq, decide_eq_true_eq]
      constructor
      · rw [hflags2, hflags1]
        exact hbits.1
      · rw [hzd]
        exact hdest
    rw [hany]
    simp

/-- Witness for C2: with a one-monomer periodic substep starting from clear
lattices, scratch cell 0 is clear after the substep. -/
theorem substep_scratch_zero_witness : (substep cfgW devW).latticeTmp 0 = false :=
  substep_scratch_zero cfgW devW (fun _ => rfl) 0

/-- Claim C3: the settle (zero) kernel updates a processed monomer's stored
position to `(x,y,z) + (dx,dy,dz)` exactly when `flags & 3 == 3`; monomers
whose flags do not have both bits set keep their stored position. -/
theorem settle_moves_iff_both_bits (cfg : SubstepCfg) (s : DeviceState) (m : ℕ)
    (hm : m < cfg.nMonomers) :
    (kernelZero cfg s).polymer (cfg.iOffset + m) =
      (if s.flags (cfg.iOffset + m) % 4 = 3 then
        { x := (s.polymer (cfg.iOffset + m)).x +
            DXTable_d (s.flags (cfg.iOffset + m) / 4 % 8),
          y := (s.polymer (cfg.iOffset + m)).y +
            DYTable_d (s.flags (cfg.iOffset + m) / 4 % 8),
          z := (s.polymer (cfg.iOffset + m)).z +
            DZTable_d (s.flags (cfg.iOffset + m) / 4 % 8),
          w := (s.polymer (cfg.iOffset + m)).w }
       else s.polymer (cfg.iOffset + m)) := by
  unfold kernelZero
  rw [kernelZeroN_polymer cfg cfg.nMonomers s m hm]
  unfold zeroData
  rfl

/-- Witness for C3: a monomer at the origin with flag value 7 (both bits set,
direction id 1 = +x) is moved to `(1,0,0)` by the zero kernel. -/
theorem settle_moves_iff_both_bits_witness :
    (kernelZero cfgW devWmove).polymer (cfgW.iOffset + 0) =
      { x := 1, y := 0, z := 0, w := 0 } := by
  rw [settle_moves_iff_both_bits cfgW devWmove 0 (by decide)]
  decide

/-- Claim C5: in non-periodic mode, a monomer whose proposed destination
leaves `[0, B-1)` on some axis is rejected by the check kernel: its flag is 0
after the check kernel, stays 0 for the whole substep, and its stored
position is unchanged by the substep. -/
theorem nonperiodic_boundary_reject (cfg : SubstepCfg) (s : DeviceState) (m : ℕ)
    (hm : m < cfg.nMonomers) (hnp : cfg.nonPeriodic = true)
    (hout :
      (s.polymer (cfg.iOffset + m)).x + DXTable_d (proposedDirection m cfg.seed) < 0 ∨
      (boxX cfg.box : ℤ) - 1 ≤
        (s.polymer (cfg.iOffset + m)).x + DXTable_d (proposedDirection m cfg.seed) ∨
      (s.polymer (cfg.iOffset + m)).y + DYTable_d (proposedDirection m cfg.seed) < 0 ∨
      (boxY cfg.box : ℤ) - 1 ≤
        (s.polymer (cfg.iOffset + m)).y + DYTable_d (proposedDirection m cfg.seed) ∨
      (s.polymer (cfg.iOffset + m)).z + DZTable_d (proposedDirection m cfg.seed) < 0 ∨
      (boxZ cfg.box : ℤ) - 1 ≤
        (s.polymer (cfg.iOffset + m)).z + DZTable_d (proposedDirection m cfg.seed)) :
    (kernelCheck cfg s).flags (cfg.iOffset + m) = 0 ∧
    (substep cfg s).flags (cfg.iOffset + m) = 0 ∧
    (substep cfg s).polymer (cfg.iOffset + m) = s.polymer (cfg.iOffset + m) := by
  have hcf : checkFlag cfg s.latticeOut s.polymer m = 0 := by
    simp only [checkFlag]
    rw [if_pos ⟨hnp, by omega⟩]
  have h1 : (kernelCheck cfg s).flags (cfg.iOffset + m) = 0 := by
    unfold kernelCheck
    rw [kernelCheckN_flags cfg s.latticeOut cfg.nMonomers s m hm, hcf]
  unfold substep kernelZero kernelPerform kernelCheck
  set s1 := kernelCheckN cfg s.latticeOut cfg.nMonomers s with hs1
  set s2 := kernelPerformN cfg s1.latticeTmp cfg.nMonomers s1 with hs2
  have hpoly1 : s1.polymer = s.polymer := by rw [hs1, kernelCheckN_polymer]
  have hpoly2 : s2.polymer = s.polymer := by
    rw [hs2, kernelPerformN_polymer, hpoly1]
  have hflags1 : s1.flags (cfg.iOffset + m) = 0 := by
    rw [hs1, kernelCheckN_flags cfg s.latticeOut cfg.nMonomers s m hm, hcf]
  have hflags2 : s2.flags (cfg.iOffset + m) = 0 := by
    rw [hs2, kernelPerformN_flags cfg s1.latticeTmp cfg.nMonomers s1 m hm, hflags1]
    rfl
  refine ⟨h1, ?_, ?_⟩
  · rw [kernelZeroN_flags]
    exact hflags2
  · rw [kernelZeroN_polymer cfg cfg.nMonomers s2 m hm, hflags2, hpoly2]
    rfl

/-- Witness for C5: a monomer far outside the 4x4x4 box in non-periodic mode
is rejected and left in place by the substep. -/
theorem nonperiodic_boundary_reject_witness :
    (kernelCheck cfgWnp devWout).flags (cfgWnp.iOffset + 0) = 0 ∧
    (substep cfgWnp devWout).flags (cfgWnp.iOffset + 0) = 0 ∧
    (substep cfgWnp devWout).polymer (cfgWnp.iOffset + 0) =
      devWout.polymer (cfgWnp.iOffset + 0) :=
  nonperiodic_boundary_reject cfgWnp devWout 0 (by decide) (by decide) (by decide)

/-- Claim C6: the bond-table validation of the setup routine raises a
configuration error if and only if the number of allowed entries of the
512-entry bond table differs from 108, and proceeds (returns successfully)
exactly when 108 entries are allowed. -/
theorem bond_table_requires_108 (f : ℕ → Bool) :
    (validateBondTable f =
        Except.error (UpdaterError.wrongBondSet (countAllowedBonds f)) ↔
      countAllowedBonds f ≠ 108) ∧
    (validateBondTable f = Except.ok (countAllowedBonds f) ↔
      countAllowedBonds f = 108) := by
  unfold validateBondTable
  split
  · rename_i h
    exact ⟨⟨fun _ => h, fun _ => rfl⟩,
      ⟨fun hh => Except.noConfusion hh, fun hh => absurd hh h⟩⟩
  · rename_i h
    exact ⟨⟨fun hh => Except.noConfusion hh, fun hh => absurd hh h⟩,
      ⟨fun _ => not_not.mp h, fun _ => rfl⟩⟩

/-- Claim C7 (divergence witness): `setLatticeSize` only validates `boxX` and
`boxX * boxY` against their shift counts, so a non-power-of-two `boxZ` is
accepted: `setLatticeSize(4,4,5)` succeeds and stores `mBoxZ = 5`, although 5
is not a power of two.  A non-power-of-two `boxY`, in contrast, is caught
through the `boxX * boxY` check. -/
theorem setLatticeSize_accepts_nonpow2_boxZ :
    setLatticeSize freshHostBox 4 4 5 =
      Except.ok { mBoxX := 4, mBoxY := 4, mBoxZ := 5, mBoxXM1 := 3,
                  mBoxYM1 := 3, mBoxZM1 := 4, mBoxXLog2 := 2, mBoxXYLog2 := 4 } ∧
    isPowerOfTwo 5 = false ∧
    setLatticeSize freshHostBox 4 6 8 = Except.error UpdaterError.boxNotPowerOfTwo := by
  refine ⟨rfl, by decide, rfl⟩

/-- Claim C8 (counterexample): `setConnectivity` on a monomer that already
has 7 stored neighbours raises the configuration error, but the stored
neighbour count is NOT unchanged: the post-increment has already bumped it
to 8 when the error is thrown. -/
theorem setConnectivity_overflow_mutates :
    (setConnectivity nbrsFull 0 1).isOk = false ∧
    (neighborsAfter (setConnectivity nbrsFull 0 1) 0).size = 8 ∧
    (nbrsFull 0).size = 7 := by
  refine ⟨?_, ?_, ?_⟩ <;> decide

/-- Claim C8 (amended): `addBond(i,j)` raises a configuration error when
monomer `i` already has `MAX_CONNECTIVITY = 7` stored neighbours, but the
engine state is not unchanged on that error: monomer `i`'s stored neighbour
count is incremented (from 7 to 8) before the throw, while its neighbour-id
slots and every other monomer's entry are untouched. -/
theorem setConnectivity_overflow_throws (nbrs : ℕ → MonomerEdges) (i j : ℕ)
    (h : (nbrs i).size = 7) :
    setConnectivity nbrs i j =
      Except.error (UpdaterError.maxConnectivityExceeded,
        Function.update nbrs i { nbrs i with size := (nbrs i).size + 1 }) ∧
    (neighborsAfter (setConnectivity nbrs i j) i).size = (nbrs i).size + 1 ∧
    (neighborsAfter (setConnectivity nbrs i j) i).neighborIds =
      (nbrs i).neighborIds ∧
    ∀ k, k ≠ i → neighborsAfter (setConnectivity nbrs i j) k = nbrs k := by
  have e : setConnectivity nbrs i j =
      Except.error (UpdaterError.maxConnectivityExceeded,
        Function.update nbrs i { nbrs i with size := (nbrs i).size + 1 }) := by
    simp only [setConnectivity]
    rw [if_pos (by rw [h]; norm_num [MAX_CONNECTIVITY])]
  refine ⟨e, ?_, ?_, ?_⟩
  · rw [e]
    show (Function.update nbrs i { nbrs i with size := (nbrs i).size + 1 } i).size = _
    rw [Function.update_apply, if_pos rfl]
  · rw [e]
    show (Function.update nbrs i
      { nbrs i with size := (nbrs i).size + 1 } i).neighborIds = _
    rw [Function.update_apply, if_pos rfl]
  · intro k hk
    rw [e]
    show Function.update nbrs i { nbrs i with size := (nbrs i).size + 1 } k = nbrs k
    rw [Function.update_apply, if_neg hk]

/-- Witness for the amended C8: on the full adjacency, the error is raised
and the count afterwards is 8, not 7. -/
theorem setConnectivity_overflow_throws_witness :
    (nbrsFull 0).size = 7 ∧
    (neighborsAfter (setConnectivity nbrsFull 0 1) 0).size = (nbrsFull 0).size + 1 :=
  ⟨by decide, (setConnectivity_overflow_throws nbrsFull 0 1 (by decide)).2.1⟩

/-- Claim C9: running 0 Monte-Carlo steps is a no-op: assuming the sorted
device array agrees with the host array through the layout bijection (as
established by the setup routine), every monomer position returned in
original index order, the bond adjacency, and the committed-lattice bytes
equal their pre-sweep values. -/
theorem run_zero_sweeps_noop (e : EngineState) (nSpecies : ℕ)
    (cfgOf : ℕ → ℕ → SubstepCfg)
    (hcons : ∀ i, i < e.nAllMonomers →
      e.dev.polymer (e.iToiNew i) = e.mPolymerSystem i) :
    (∀ i, (runSimulationOnGPU e nSpecies cfgOf 0).mPolymerSystem i =
        e.mPolymerSystem i) ∧
    (runSimulationOnGPU e nSpecies cfgOf 0).mNeighbors = e.mNeighbors ∧
    (runSimulationOnGPU e nSpecies cfgOf 0).dev.latticeOut = e.dev.latticeOut ∧
    (runSimulationOnGPU e nSpecies cfgOf 0).dev.polymer = e.dev.polymer := by
  unfold runSimulationOnGPU
  refine ⟨?_, rfl, rfl, rfl⟩
  intro i
  show (if i < e.nAllMonomers then
      ((List.range 0).foldl (fun st iStep => runOneMCStep nSpecies (cfgOf iStep) st)
        e.dev).polymer (e.iToiNew i)
    else e.mPolymerSystem i) = e.mPolymerSystem i
  by_cases h : i < e.nAllMonomers
  · rw [if_pos h]
    exact hcons i h
  · rw [if_neg h]

/-- Witness for C9 on a one-monomer engine with the identity bijection. -/
theorem run_zero_sweeps_noop_witness :
    (runSimulationOnGPU engW 1 (fun _ _ => cfgW) 0).mPolymerSystem 0 =
      engW.mPolymerSystem 0 ∧
    (runSimulationOnGPU engW 1 (fun _ _ => cfgW) 0).mNeighbors = engW.mNeighbors ∧
    (runSimulationOnGPU engW 1 (fun _ _ => cfgW) 0).dev.latticeOut =
      engW.dev.latticeOut := by
  have h := run_zero_sweeps_noop engW 1 (fun _ _ => cfgW) (fun i _ => rfl)
  exact ⟨h.1 0, h.2.1, h.2.2.1⟩

end Pscbfm
